import Mathlib

/-! botbrew `init` (jni/init/init.c): a shallow embedding.

The jail bootstrapper is a single C file.  Its pure parts (device-number
encoding, `PATH` assembly, mount-table scan) are embedded as Lean functions.
Its system-call sequences are embedded as functions that thread a trace of
calls: every libc / kernel call the program makes is answered by a `World`,
which may look at the whole history of earlier calls and their answers, and
the call is appended to the trace together with its answer.
-/

namespace Botbrew

/-! ## Constants (init.c:24-25) -/

/-- `#define ENV_PATH` (init.c:24). -/
def ENV_PATH : String :=
  "/usr/local/sbin:/usr/local/bin:/usr/sbin:/usr/bin:/sbin:/bin:/usr/local/games:/usr/games:/botbrew/bin:/usr/lib/busybox"

/-- `#define LOOP_MAX` (init.c:25). -/
def LOOP_MAX : Nat := 4096

/-- `sizeof` of a string literal: its length plus the terminating NUL. -/
def sizeof_lit (s : String) : Nat := s.data.length + 1

/-! ## Device numbers (init.c:103) -/

/-- The bits of a 32-bit `unsigned int`. -/
def u32 (n : Nat) : Nat := n % 2 ^ 32

/-- `unsigned int dev = (0xff&i)|((i<<12)&0xfff00000)|(7<<8);` (init.c:103). -/
def loop_dev (i : Nat) : Nat :=
  u32 ((0xff &&& i) ||| (u32 (i <<< 12) &&& 0xfff00000) ||| (7 <<< 8))

/-- Linux `major(dev)` as the claim writes it: `(dev >> 8) & 0xfff`. -/
def dev_major (dev : Nat) : Nat := (dev >>> 8) &&& 0xfff

/-- Linux `minor(dev)` as the claim writes it: `(dev & 0xff) | ((dev >> 12) & 0xfff00)`. -/
def dev_minor (dev : Nat) : Nat := (dev &&& 0xff) ||| ((dev >>> 12) &&& 0xfff00)

/-! ## C strings and `memcpy` (init.c:413-430) -/

/-- The NUL byte. -/
def NUL : Char := Char.ofNat 0

/-- In-memory image of a C string: its characters followed by NUL. -/
def cstr (s : List Char) : List Char := s ++ [NUL]

/-- Reading a C string back from memory: everything before the first NUL. -/
def read_cstr (mem : List Char) : List Char := mem.takeWhile (fun c => c != NUL)

/-- `strstr(hay, needle)`: offset of the first occurrence of `needle`, `none` for NULL. -/
def strstr (hay needle : List Char) : Option Nat :=
  match hay with
  | [] => if needle.isPrefixOf [] then some 0 else none
  | c :: cs =>
    if needle.isPrefixOf (c :: cs) then some 0
    else (strstr cs needle).map (fun k => k + 1)

/-- `memcpy(mem + off, src, n)`: the `n` bytes at `src` replace the bytes of `mem`
from offset `off` on.  Memory is the allocated block followed by whatever lies
behind it, so a write past the block is recorded rather than lost. -/
def memcpy (mem : List Char) (off : Nat) (src : List Char) (n : Nat) : List Char :=
  mem.take off ++ src.take n ++ mem.drop (off + n)

/-- One `memcpy` into `newpath`: destination offset and the bytes copied. -/
structure PathWrite where
  off : Nat
  bytes : List Char
deriving DecidableEq, Repr

/-- The `malloc` size and the `memcpy` calls of init.c:415-427, in program order,
for a non-empty inherited `PATH`. -/
structure PathBuf where
  alloc : Nat
  writes : List PathWrite
deriving DecidableEq, Repr

/-- The non-empty branch of the PATH block (init.c:415-427). -/
def path_buf (env_path : List Char) : PathBuf :=
  let env_path_len := env_path.length
  let alloc := sizeof_lit ENV_PATH + env_path_len
  match strstr env_path "::".data with
  | some k =>
    -- append = strstr(env_path,"::"); append++;
    let append := k + 1
    let prepend_len := append
    { alloc := alloc
      writes :=
        [ ⟨0, (cstr env_path).take prepend_len⟩,
          ⟨prepend_len, (cstr ENV_PATH.data).take (sizeof_lit ENV_PATH - 1)⟩,
          ⟨prepend_len + sizeof_lit ENV_PATH - 1,
            ((cstr env_path).drop append).take (env_path_len - prepend_len + 1)⟩ ] }
  | none =>
    { alloc := alloc
      writes :=
        [ ⟨0, (cstr (ENV_PATH ++ ":").data).take (sizeof_lit (ENV_PATH ++ ":") - 1)⟩,
          ⟨sizeof_lit (ENV_PATH ++ ":") - 1, (cstr env_path).take (env_path_len + 1)⟩ ] }

/-- Contents of memory at `newpath` after the writes, starting from `heap`. -/
def run_writes (heap : List Char) (ws : List PathWrite) : List Char :=
  ws.foldl (fun mem w => memcpy mem w.off w.bytes w.bytes.length) heap

/-- The value handed to `setenv("PATH", ..., 1)` (init.c:413-430): `env_path` is the
result of `getenv("PATH")` (`none` for NULL), `heap` the initial contents of the
memory `malloc` returned. -/
def new_path (heap : List Char) (env_path : Option (List Char)) : List Char :=
  match env_path with
  | none => (ENV_PATH ++ ":/android/sbin:/system/sbin:/system/bin:/system/xbin").data
  | some [] => (ENV_PATH ++ ":/android/sbin:/system/sbin:/system/bin:/system/xbin").data
  | some (c :: cs) => read_cstr (run_writes heap (path_buf (c :: cs)).writes)

/-! ## The world: calls, answers, traces -/

/-- The fields of `struct stat` the program reads. -/
structure Stat where
  st_mode : Nat
  st_uid : Nat
  st_gid : Nat
  st_mtime : Int
  st_size : Nat
deriving DecidableEq, Repr, Inhabited

/-- The fields of `struct mntent` the program reads. -/
structure mntent where
  mnt_fsname : String
  mnt_dir : String
deriving DecidableEq, Repr, Inhabited

/-- Every libc / kernel call the program makes, with its arguments.  A `const char *`
that the program passes as NULL on purpose is an `Option String`. -/
inductive Call where
  /-- The `dirname` of libgen.h as Android's libc has it: the result lies in a buffer of
  its own and the argument string is left as it is. -/
  | dirname (path : String)
  | realpath (path : String)
  | lstat (path : String)
  | stat (path : String)
  | fstat (fd : Int)
  | chown (path : String) (uid gid : Nat)
  | chmod (path : String) (mode : Nat)
  /-- Stands for `fopen("/proc/self/mounts","r")` and the `getmntent` reads of that stream. -/
  | read_mounts
  | mknod (path : String) (mode dev : Nat)
  | open_ (path : String) (flags mode : Nat)
  | close (fd : Int)
  | sendfile (out_fd in_fd : Int) (count : Nat)
  | ioctl_get_status (fd : Int)
  | ioctl_set_fd (fd filefd : Int)
  | ioctl_set_status (fd : Int) (lo_file_name : String)
  | ioctl_clr_fd (fd : Int)
  | mount (source : Option String) (target : String) (fstype : Option String)
      (flags : Nat) (data : Option String)
  | umount2 (target : String) (flags : Nat)
  | mkdir (path : String) (mode : Nat)
  | rmdir (path : String)
  | getcwd
  | chdir (path : String)
  | chroot (path : String)
  | setgroups (gids : List Nat)
  | setregid (rgid egid : Nat)
  | setreuid (ruid euid : Nat)
  | getenv (name : String)
  | malloc (size : Nat)
  | setenv (name value : String)
  | unsetenv (name : String)
  | execvp (file : String) (argv : List String)
deriving DecidableEq, Repr

/-- The answer to a call.  `ret` is the C return value (`-1` with `errno` set on
failure; for a call returning a pointer, `0` stands for NULL and anything else for
success).  `st` is what `stat`/`lstat`/`fstat` stored, `str` the string a pointer
result points to, `mnt` the entries `getmntent` yields from the opened table. -/
structure Resp where
  ret : Int
  errno : Nat
  st : Stat
  str : String
  mnt : List mntent
deriving DecidableEq, Repr, Inhabited

/-- A call together with the answer it got. -/
abbrev Event := Call × Resp

/-- Everything the program has done so far, oldest call first. -/
abbrev Trace := List Event

/-- An environment: the answer to the next call, given the history. -/
abbrev World := Trace → Call → Resp

/-- Make a call: ask the world and record call and answer. -/
def sys (w : World) (c : Call) (tr : Trace) : Resp × Trace :=
  (w tr c, tr ++ [(c, w tr c)])

/-- Answer `0`. -/
def Resp.ok : Resp := ⟨0, 0, default, "", []⟩

/-- Answer `-1` with `errno`. -/
def Resp.fail (errno : Nat) : Resp := ⟨-1, errno, default, "", []⟩

/-- Answer with a non-negative integer (a descriptor). -/
def Resp.val (n : Int) : Resp := ⟨n, 0, default, "", []⟩

/-- Answer with a string (non-NULL pointer). -/
def Resp.string (s : String) : Resp := ⟨1, 0, default, s, []⟩

/-- Answer `0` with a filled `struct stat`. -/
def Resp.stat (st : Stat) : Resp := ⟨0, 0, st, "", []⟩

/-- Answer with an opened mount table. -/
def Resp.mounts (tbl : List mntent) : Resp := ⟨1, 0, default, "", tbl⟩

/-! ## Header constants -/

def ENXIO : Nat := 6
def EEXIST : Nat := 17
def EXIT_SUCCESS : Nat := 0
def EXIT_FAILURE : Nat := 1
def O_RDONLY : Nat := 0
def O_WRONLY : Nat := 1
def O_RDWR : Nat := 2
def O_CREAT : Nat := 0o100
def S_IFMT : Nat := 0o170000
def S_IFBLK : Nat := 0o060000
def S_IFREG : Nat := 0o100000
def S_IFDIR : Nat := 0o040000
def S_ISUID : Nat := 0o4000
def S_IWGRP : Nat := 0o020
def S_IWOTH : Nat := 0o002
def MS_NODEV : Nat := 4
def MS_NOEXEC : Nat := 8
def MS_REMOUNT : Nat := 32
def MS_NOATIME : Nat := 1024
def MS_BIND : Nat := 4096
def MNT_DETACH : Nat := 2
def LO_NAME_SIZE : Nat := 64

/-- `S_ISREG(mode)`. -/
def S_ISREG (mode : Nat) : Bool := mode &&& S_IFMT == S_IFREG

/-- `S_ISDIR(mode)`. -/
def S_ISDIR (mode : Nat) : Bool := mode &&& S_IFMT == S_IFDIR

/-! ## Loop devices (init.c:95-171) -/

/-- State of `loopdev_get` when its `for` loop is left (init.c:102-112). -/
structure LoopScan where
  /-- Index `i` of the iteration that broke out, `LOOP_MAX` when none did. -/
  i : Nat
  devpath : String
  devfd : Int
  success : Bool
deriving DecidableEq, Repr

/-- The `for` loop of `loopdev_get` (init.c:102-112); `n` iterations remain and the
next index is `i`. -/
def loopdev_scan (w : World) (devpath : String) (devfd : Int) :
    Nat → Nat → Trace → LoopScan × Trace
  | 0, i, tr => (⟨i, devpath, devfd, false⟩, tr)
  | n + 1, i, tr =>
    let dev := loop_dev i
    let devpath := "/dev/block/loop" ++ toString i
    let (r, tr) := sys w (.mknod devpath (0o660 ||| S_IFBLK) dev) tr
    if r.ret < 0 ∧ r.errno ≠ EEXIST then (⟨i, devpath, devfd, false⟩, tr) else
    let (r, tr) := sys w (.open_ devpath O_RDWR 0) tr
    let devfd := r.ret
    if devfd < 0 then (⟨i, devpath, devfd, false⟩, tr) else
    let (r, tr) := sys w (.ioctl_get_status devfd) tr
    if r.ret < 0 then (⟨i, devpath, devfd, r.errno == ENXIO⟩, tr) else
    let (_, tr) := sys w (.close devfd) tr
    loopdev_scan w devpath devfd n (i + 1) tr

/-- `strlcpy((char*)loopinfo.lo_file_name,filepath,LO_NAME_SIZE)` (init.c:127). -/
def lo_file_name (filepath : String) : String :=
  String.mk (filepath.data.take (LO_NAME_SIZE - 1))

/-- `loopdev_get` (init.c:95-137); `none` is the NULL result.  `success` is set by
the loop and never read afterwards, as in the source. -/
def loopdev_get (w : World) (filepath : String) (tr : Trace) : Option String × Trace :=
  let (s, tr) := loopdev_scan w "" (-1) LOOP_MAX 0 tr
  let (r, tr) := sys w (.open_ filepath O_RDWR 0) tr
  let filefd := r.ret
  if filefd < 0 then
    let (_, tr) := sys w (.close s.devfd) tr
    (none, tr)
  else
  let (r, tr) := sys w (.ioctl_set_fd s.devfd filefd) tr
  if r.ret < 0 then
    let (_, tr) := sys w (.close filefd) tr
    let (_, tr) := sys w (.close s.devfd) tr
    (none, tr)
  else
  let (r, tr) := sys w (.ioctl_set_status s.devfd (lo_file_name filepath)) tr
  if r.ret < 0 then
    let (_, tr) := sys w (.close filefd) tr
    let (_, tr) := sys w (.close s.devfd) tr
    (none, tr)
  else
  let (_, tr) := sys w (.close filefd) tr
  let (_, tr) := sys w (.close s.devfd) tr
  (some s.devpath, tr)

/-- `loopdev_del` (init.c:139-148). -/
def loopdev_del (w : World) (devpath : String) (tr : Trace) : Int × Trace :=
  let (r, tr) := sys w (.open_ devpath O_RDONLY 0) tr
  let devfd := r.ret
  if devfd < 0 then (-1, tr) else
  let (r, tr) := sys w (.ioctl_clr_fd devfd) tr
  if r.ret < 0 then
    let (_, tr) := sys w (.close devfd) tr
    (-1, tr)
  else
  let (_, tr) := sys w (.close devfd) tr
  (0, tr)

/-- `loopdev_mount` (init.c:150-156). -/
def loopdev_mount (w : World) (source target : String) (filesystemtype : Option String)
    (mountflags : Nat) (data : Option String) (tr : Trace) : Int × Trace :=
  match loopdev_get w source tr with
  | (none, tr) => (-1, tr)
  | (some devpath, tr) =>
    let (r, tr) := sys w (.mount (some devpath) target filesystemtype mountflags data) tr
    let res := r.ret
    if res ≠ 0 then
      let (_, tr) := loopdev_del w devpath tr
      (res, tr)
    else (res, tr)

/-- The `while(mntent = getmntent(mntfp))` loop of `loopdev_umount2` (init.c:161-168). -/
def loopdev_umount2_scan (w : World) (target : String) (flags : Nat) :
    List mntent → Trace → Int × Trace
  | [], tr => (-1, tr)
  | m :: ms, tr =>
    if m.mnt_dir = target then
      let (r, tr) := sys w (.umount2 target flags) tr
      let res := r.ret
      let (_, tr) := loopdev_del w m.mnt_fsname tr
      (res, tr)
    else loopdev_umount2_scan w target flags ms tr

/-- `loopdev_umount2` (init.c:158-171); `none` when `fopen` gave NULL and `getmntent`
dereferences it. -/
def loopdev_umount2 (w : World) (target : String) (flags : Nat) (tr : Trace) :
    Option Int × Trace :=
  let (r, tr) := sys w .read_mounts tr
  if r.ret = 0 then (none, tr) else
  let (res, tr) := loopdev_umount2_scan w target flags r.mnt tr
  (some res, tr)

/-! ## Bind-mount tree (init.c:27-52, 173-240) -/

/-- `struct mountspec` (init.c:27-34). -/
structure mountspec where
  src : Option String
  dst : String
  type : Option String
  flags : Nat
  data : Option String
  remount_flags : Nat
deriving DecidableEq, Repr

/-- `foreign_mounts[]` (init.c:36-52), without the all-NULL terminator. -/
def foreign_mounts : List mountspec :=
  [ ⟨none, "/proc", some "proc", 0, none, 0⟩,
    ⟨some "/dev", "/dev", none, MS_BIND, none, 0⟩,
    ⟨some "/dev/pts", "/dev/pts", none, MS_BIND, none, 0⟩,
    ⟨none, "/sys", some "sysfs", 0, none, 0⟩,
    ⟨none, "/android", some "tmpfs", MS_NODEV ||| MS_NOEXEC ||| MS_NOATIME,
      some "size=1M,mode=0755", 0⟩,
    ⟨some "/cache", "/android/cache", none, MS_BIND, none, 0⟩,
    ⟨some "/data", "/android/data", none, MS_BIND, none, 0⟩,
    ⟨some "/datadata", "/android/datadata", none, MS_BIND, none, 0⟩,
    ⟨some "/emmc", "/android/emmc", none, MS_BIND, none, 0⟩,
    ⟨some "/sd-ext", "/android/sd-ext", none, MS_BIND, none, 0⟩,
    ⟨some "/sdcard", "/android/sdcard", none, MS_BIND, none, 0⟩,
    ⟨some "/system", "/android/system", none, MS_BIND, none,
      MS_REMOUNT ||| MS_NODEV ||| MS_NOATIME⟩,
    ⟨some "/usbdisk", "/android/usbdisk", none, MS_BIND, none, 0⟩,
    ⟨some "/system/xbin", "/android/system/xbin", none, MS_BIND, none,
      MS_REMOUNT ||| MS_NODEV ||| MS_NOATIME⟩ ]

/-- `strconcat` (init.c:86-93). -/
def strconcat (a b : String) : String := a ++ b

/-- One of the five blocks init.c:176-205: `mkdir(fs_dst,0755); mount(fs,fs_dst,NULL,MS_BIND,NULL);`. -/
def bind_inner (w : World) (target sub sub_dst : String) (tr : Trace) : Trace :=
  let fs := strconcat target sub
  let fs_dst := strconcat target sub_dst
  let (_, tr) := sys w (.mkdir fs_dst 0o755) tr
  let (_, tr) := sys w (.mount (some fs) fs_dst none MS_BIND none) tr
  tr

/-- The `while(1)` loop of `mount_setup` over `foreign_mounts` (init.c:222-234). -/
def mount_foreign (w : World) (target : String) : List mountspec → Trace → Trace
  | [], tr => tr
  | m :: ms, tr =>
    let body (tr : Trace) : Trace :=
      let dst := target ++ m.dst
      let (_, tr) := sys w (.mkdir dst 0o755) tr
      let (r, tr) := sys w (.mount m.src dst m.type m.flags m.data) tr
      if r.ret ≠ 0 then (sys w (.rmdir dst) tr).2
      else if m.remount_flags ≠ 0 then
        (sys w (.mount (some dst) dst none (m.remount_flags ||| MS_REMOUNT) none) tr).2
      else tr
    match m.src with
    | some src =>
      let (r, tr) := sys w (.stat src) tr
      if r.ret ≠ 0 then mount_foreign w target ms tr
      else mount_foreign w target ms (body tr)
    | none => mount_foreign w target ms (body tr)

/-- `mount_setup` (init.c:173-235). -/
def mount_setup (w : World) (target : String) (loopdev : Bool) (tr : Trace) : Trace :=
  let tr := if !loopdev then (sys w (.mount (some target) target none MS_BIND none) tr).2 else tr
  let (_, tr) := sys w (.mount (some target) target none
    (MS_REMOUNT ||| MS_NODEV ||| MS_NOATIME) none) tr
  let tr := bind_inner w target "/etc" "/botbrew/etc" tr
  let tr := bind_inner w target "/home" "/botbrew/home" tr
  let tr := bind_inner w target "/root" "/botbrew/root" tr
  let tr := bind_inner w target "/var" "/botbrew/var" tr
  let tr := bind_inner w target "/usr/share" "/botbrew/share" tr
  let fs := strconcat target "/run"
  let (_, tr) := sys w (.mount none fs (some "tmpfs") 0 (some "size=10%,mode=0755")) tr
  let fs_dst := strconcat target "/botbrew/run"
  let (_, tr) := sys w (.mkdir fs_dst 0o755) tr
  let (_, tr) := sys w (.mount (some fs) fs_dst none MS_BIND none) tr
  let (_, tr) := sys w (.mkdir (strconcat target "/run/tmp") 0o1777) tr
  let (_, tr) := sys w (.mkdir (strconcat target "/run/lock") 0o1777) tr
  mount_foreign w target foreign_mounts tr

/-- `mount_teardown` (init.c:237-240); `false` when `loopdev_umount2` dereferenced a
NULL stream. -/
def mount_teardown (w : World) (target : String) (loopdev : Bool) (tr : Trace) : Bool × Trace :=
  if loopdev then
    match loopdev_umount2 w target MNT_DETACH tr with
    | (none, tr) => (false, tr)
    | (some _, tr) => (true, tr)
  else (true, (sys w (.umount2 target MNT_DETACH) tr).2)

/-- `copy` (init.c:242-253) for non-NULL `src` and `dst`. -/
def copy (w : World) (src dst : String) (tr : Trace) : Int × Trace :=
  let (r, tr) := sys w (.open_ src O_RDONLY 0) tr
  let src_fd := r.ret
  let (r, tr) := sys w (.fstat src_fd) tr
  let st := r.st
  let (r, tr) := sys w (.open_ dst (O_WRONLY ||| O_CREAT) st.st_mode) tr
  let dst_fd := r.ret
  let (_, tr) := sys w (.sendfile dst_fd src_fd st.st_size) tr
  let (_, tr) := sys w (.close dst_fd) tr
  let (_, tr) := sys w (.close src_fd) tr
  (0, tr)

/-! ## `main` (init.c:255-449) -/

/-- The one-line diagnostics `main` prints to stderr before it gives up. -/
inductive Diag where
  /-- `usage(self)` (init.c:54-64). -/
  | usage
  /-- "whoops: --dir is only available for uid=0" (init.c:282). -/
  | dir_needs_root
  /-- "whoops: cannot stat ..." (init.c:300). -/
  | cannot_stat
  /-- "whoops: ... is not owned by uid=0" (init.c:304). -/
  | not_owned_by_root
  /-- "whoops: ... does not exist" (init.c:310). -/
  | does_not_exist
  /-- "whoops: ... is not a directory" (init.c:319). -/
  | not_a_directory
  /-- "whoops: superuser privileges required to unmount" (init.c:360). -/
  | unmount_needs_root
  /-- "whoops: superuser privileges required for first invocation of ..." (init.c:369). -/
  | first_needs_root
  /-- "whoops: cannot mount ..." (init.c:374). -/
  | cannot_mount
  /-- "whoops: cannot get working directory" (init.c:395). -/
  | no_cwd
  /-- "whoops: cannot chdir to namespace" (init.c:399). -/
  | cannot_chdir
  /-- "whoops: cannot chroot" (init.c:403). -/
  | cannot_chroot
  /-- "whoops: cannot chdir to chroot" (init.c:407). -/
  | cannot_chdir_back
  /-- "whoops: cannot run ..." (init.c:442-444). -/
  | cannot_run
deriving DecidableEq, Repr

/-- How a run of `main` ends. -/
inductive Exit where
  /-- The process ends with this status, after the diagnostic (if any) on stderr. -/
  | status (code : Nat) (diag : Option Diag)
  /-- The call to `execvp` did not return: the process image was replaced. -/
  | replaced
  /-- A NULL pointer was dereferenced. -/
  | fault
deriving DecidableEq, Repr

/-- One result of `getopt_long(argc,argv,"d:t:ru",...)` other than `-1`. -/
inductive Opt where
  | d (optarg : String)
  | t (optarg : String)
  | r
  | u
  /-- Any other return value (`?` for an unknown option or a missing argument). -/
  | other
deriving DecidableEq, Repr

/-- What a process is started with. -/
structure Proc where
  /-- `getuid()`. -/
  uid : Nat
  /-- `geteuid()`. -/
  euid : Nat
  /-- `getgid()`. -/
  gid : Nat
  /-- Path of the binary image the kernel is executing; the program never reads it. -/
  exe : String
  /-- The string `argv[0]` as given by the invoker. -/
  argv0 : String
  /-- Successive results of `getopt_long`, up to the `-1` that ends the loop. -/
  opts : List Opt
  /-- The words `argv+optind`; empty when `optind==argc`. -/
  cmd : List String
deriving DecidableEq, Repr

/-- The locals of `main` that are fixed by line 326. -/
structure Ctx where
  child_root : String
  loopmount : Option String
  self : String
  remount : Bool
  unmount : Bool
deriving DecidableEq, Repr

/-- The `getopt_long` loop (init.c:266-295) over the remaining option results. -/
def getopt_loop (uid : Nat) (w : World) :
    List Opt → Option String → Bool → Bool → Trace →
      Except Exit (Option String × Bool × Bool) × Trace
  | [], child_root, remount, unmount, tr => (.ok (child_root, remount, unmount), tr)
  | .d optarg :: os, _, remount, unmount, tr =>
    if uid ≠ 0 then (.error (.status EXIT_FAILURE (some .dir_needs_root)), tr) else
    let (r, tr) := sys w (.realpath optarg) tr
    getopt_loop uid w os (if r.ret ≠ 0 then some r.str else none) remount unmount tr
  | .t optarg :: os, _, remount, unmount, tr =>
    if uid ≠ 0 then (.error (.status EXIT_FAILURE (some .dir_needs_root)), tr) else
    let (r, tr) := sys w (.realpath optarg) tr
    getopt_loop uid w os (if r.ret ≠ 0 then some r.str else none) remount unmount tr
  | .r :: os, child_root, _, _, tr => getopt_loop uid w os child_root true true tr
  | .u :: os, child_root, remount, _, tr => getopt_loop uid w os child_root remount true tr
  | .other :: _, _, _, _, tr => (.error (.status EXIT_FAILURE (some .usage)), tr)

/-- The ownership check of init.c:297-307. -/
def check_self (uid : Nat) (w : World) (self : String) (tr : Trace) : Option Exit × Trace :=
  if uid ≠ 0 then
    let (r, tr) := sys w (.lstat self) tr
    if r.ret ≠ 0 then (some (.status EXIT_FAILURE (some .cannot_stat)), tr)
    else if r.st.st_uid ≠ 0 then (some (.status EXIT_FAILURE (some .not_owned_by_root)), tr)
    else (none, tr)
  else (none, tr)

/-- Lines 308-326 of `main`: the target must exist and be a regular file or a directory.
A NULL `child_root` makes `stat` fail (EFAULT) without the world being asked. -/
def check_target (w : World) (child_root : Option String) (remount unmount : Bool)
    (tr : Trace) : Except Exit Ctx × Trace :=
  match child_root with
  | none => (.error (.status EXIT_FAILURE (some .does_not_exist)), tr)
  | some child_root =>
    let (r, tr) := sys w (.stat child_root) tr
    let st := r.st
    if r.ret ≠ 0 then (.error (.status EXIT_FAILURE (some .does_not_exist)), tr)
    else if S_ISREG st.st_mode then
      let loopmount := child_root
      let (r, tr) := sys w (.dirname loopmount) tr
      let (r, tr) := sys w (.realpath r.str) tr
      -- strlen(child_root) on a NULL result
      if r.ret = 0 then (.error .fault, tr) else
      let child_root := r.str
      (.ok ⟨child_root, some loopmount, child_root ++ "/init", remount, unmount⟩, tr)
    else if !S_ISDIR st.st_mode then
      (.error (.status EXIT_FAILURE (some .not_a_directory)), tr)
    else
      let tr := if st.st_uid ≠ 0 ∨ st.st_gid ≠ 0 then (sys w (.chown child_root 0 0) tr).2 else tr
      let tr := if st.st_mode &&& S_IWGRP ≠ 0 ∨ st.st_mode &&& S_IWOTH ≠ 0 then
        (sys w (.chmod child_root 0o755) tr).2 else tr
      (.ok ⟨child_root, none, child_root ++ "/init", remount, unmount⟩, tr)

/-- Lines 255-326 of `main`. -/
def main_init (p : Proc) (w : World) (tr : Trace) : Except Exit Ctx × Trace :=
  let self := p.argv0
  let uid := p.uid
  let (r, tr) := sys w (.dirname self) tr
  let (r, tr) := sys w (.realpath r.str) tr
  let child_root := if r.ret ≠ 0 then some r.str else none
  match getopt_loop uid w p.opts child_root false false tr with
  | (.error e, tr) => (.error e, tr)
  | (.ok (child_root, remount, unmount), tr) =>
    match check_self uid w self tr with
    | (some e, tr) => (.error e, tr)
    | (none, tr) => check_target w child_root remount unmount tr

/-- `strncmp(a,b,n) == 0` for C strings. -/
def strncmp_eq (a b : String) (n : Nat) : Bool := a.data.take n == b.data.take n

/-- The inner loop `while(mnt = getmntent(fp2)) if(strcmp(mnt->mnt_dir,mntpt_run) == 0)`
(init.c:345-348): the value `mounted` gets. -/
def scan_run (mntpt_run : String) : List mntent → Bool
  | [] => false
  | m :: ms => if m.mnt_dir = mntpt_run then true else scan_run mntpt_run ms

/-- The outer loop `while(mnt = getmntent(fp1))` (init.c:334-354); the result is
`(mounted, loopmounted)`. -/
def scan_mounts (w : World) (mntpt : String) : List mntent → Trace → (Bool × Bool) × Trace
  | [], tr => ((false, false), tr)
  | mnt :: rest, tr =>
    if mnt.mnt_dir ≠ mntpt then scan_mounts w mntpt rest tr
    else if strncmp_eq mnt.mnt_fsname "/dev/block/loop" (sizeof_lit "/dev/block/loop" - 1)
        || strncmp_eq mnt.mnt_fsname "/dev/loop" (sizeof_lit "/dev/loop" - 1) then
      let (r, tr) := sys w .read_mounts tr
      if r.ret ≠ 0 then ((scan_run (mntpt ++ "/run") r.mnt, true), tr)
      else ((false, true), tr)
    else ((true, false), tr)

/-- Lines 327-356 of `main`: the result is `(mounted, loopmounted)`. -/
def detect_mounts (w : World) (child_root : String) (tr : Trace) : (Bool × Bool) × Trace :=
  let (r, tr) := sys w .read_mounts tr
  if r.ret ≠ 0 then scan_mounts w child_root r.mnt tr
  else ((false, false), tr)

/-- `privdrop` (init.c:66-79), the `linux` branch. -/
def privdrop (p : Proc) (w : World) (tr : Trace) : Trace :=
  let gid := p.gid
  let uid := p.uid
  let (_, tr) := sys w (.setgroups [gid]) tr
  let (_, tr) := sys w (.setregid gid gid) tr
  let (_, tr) := sys w (.setreuid uid uid) tr
  tr

/-- Lines 357-366 of `main`: the result is the new value of `mounted`, or the exit. -/
def unmount_step (p : Proc) (w : World) (c : Ctx) (mounted loopmounted : Bool) (tr : Trace) :
    Except Exit Bool × Trace :=
  if c.unmount then
    if p.euid ≠ 0 then (.error (.status EXIT_FAILURE (some .unmount_needs_root)), tr) else
    match mount_teardown w c.child_root loopmounted tr with
    | (false, tr) => (.error .fault, tr)
    | (true, tr) =>
      if c.remount then (.ok false, tr)
      else (.error (.status EXIT_SUCCESS none), tr)
  else (.ok mounted, tr)

/-- Lines 380-385 of `main`: copy the running binary to `self` when that is missing or older. -/
def install_copy (w : World) (argv0 self : String) (tr : Trace) : Trace :=
  if argv0 ≠ self then
    let (r, tr) := sys w (.stat argv0) tr
    let mtime : Int := if r.ret ≠ 0 then 0 else r.st.st_mtime
    let (r, tr) := sys w (.stat self) tr
    let st := r.st
    if r.ret = 0 then
      if !S_ISDIR st.st_mode ∧ st.st_mtime < mtime then (copy w argv0 self tr).2 else tr
    else (copy w argv0 self tr).2
  else tr

/-- Lines 386-390 of `main`: re-assert owner and mode of `self`. -/
def install_setuid (w : World) (self : String) (tr : Trace) : Trace :=
  let (r, tr) := sys w (.stat self) tr
  let st := r.st
  if r.ret = 0 then
    let tr := if st.st_uid ≠ 0 ∨ st.st_gid ≠ 0 then (sys w (.chown self 0 0) tr).2 else tr
    if st.st_mode &&& S_IWGRP ≠ 0 ∨ st.st_mode &&& S_IWOTH ≠ 0 ∨ st.st_mode &&& S_ISUID = 0 then
      (sys w (.chmod self 0o4755) tr).2
    else tr
  else tr

/-- Lines 380-390 of `main`. -/
def self_install (w : World) (argv0 self : String) (tr : Trace) : Trace :=
  install_setuid w self (install_copy w argv0 self tr)

/-- Lines 367-391 of `main`; `none` when execution goes on to the chroot. -/
def setup_step (p : Proc) (w : World) (c : Ctx) (mounted loopmounted : Bool) (tr : Trace) :
    Option Exit × Trace :=
  if !mounted then
    if p.euid ≠ 0 then (some (.status EXIT_FAILURE (some .first_needs_root)), tr) else
    match c.loopmount with
    | some loopmount =>
      let (res, tr) := loopdev_mount w loopmount c.child_root (some "ext4") 0 none tr
      if res ≠ 0 then (some (.status EXIT_FAILURE (some .cannot_mount)), tr) else
      let tr := mount_setup w c.child_root true tr
      (none, self_install w p.argv0 c.self tr)
    | none =>
      let tr := mount_setup w c.child_root loopmounted tr
      (none, self_install w p.argv0 c.self tr)
  else (none, tr)

/-- Lines 392-409 of `main`, the chroot and chdir dance; `none` when it went through. -/
def chroot_dance (w : World) (c : Ctx) (tr : Trace) : Option Exit × Trace :=
  let (r, tr) := sys w .getcwd tr
  if r.ret = 0 then (some (.status EXIT_FAILURE (some .no_cwd)), tr) else
  let cwd := r.str
  let (r, tr) := sys w (.chdir c.child_root) tr
  if r.ret ≠ 0 then (some (.status EXIT_FAILURE (some .cannot_chdir)), tr) else
  let (r, tr) := sys w (.chroot ".") tr
  if r.ret ≠ 0 then (some (.status EXIT_FAILURE (some .cannot_chroot)), tr) else
  let (r, tr) := sys w (.chdir cwd) tr
  if r.ret ≠ 0 then
    let (r, tr) := sys w (.chdir "/") tr
    if r.ret ≠ 0 then (some (.status EXIT_FAILURE (some .cannot_chdir_back)), tr)
    else (none, tr)
  else (none, tr)

/-- Lines 413-430 of `main`: set the new `PATH`; `false` when `malloc` gave NULL, which
the first `memcpy` dereferences. -/
def set_path (w : World) (tr : Trace) : Bool × Trace :=
  let (r, tr) := sys w (.getenv "PATH") tr
  let env_path : Option (List Char) := if r.ret ≠ 0 then some r.str.data else none
  match env_path with
  | some (ch :: cs) =>
    let (m, tr) := sys w (.malloc (path_buf (ch :: cs)).alloc) tr
    if m.ret = 0 then (false, tr) else
    let (_, tr) := sys w (.setenv "PATH" (String.mk (new_path m.str.data env_path))) tr
    (true, tr)
  | _ =>
    let (_, tr) := sys w (.setenv "PATH" (String.mk (new_path [] env_path))) tr
    (true, tr)

/-- Lines 410-449 of `main`: drop privileges, set up the environment, run the command.
An answer `0` to `execvp` stands for the call not returning. -/
def run_child (p : Proc) (w : World) (c : Ctx) (tr : Trace) : Exit × Trace :=
  let tr := privdrop p w tr
  match set_path w tr with
  | (false, tr) => (.fault, tr)
  | (true, tr) =>
    let (_, tr) := sys w (.unsetenv "LD_LIBRARY_PATH") tr
    let (_, tr) := sys w (.setenv "BOTBREW_PREFIX" c.child_root) tr
    let child_argv := if p.cmd = [] then ["/init.sh"] else p.cmd
    let (r, tr) := sys w (.execvp (child_argv.headD "") child_argv) tr
    if r.ret ≠ 0 then (.status r.errno (some .cannot_run), tr)
    else (.replaced, tr)

/-- Lines 392-449 of `main`. -/
def enter_jail (p : Proc) (w : World) (c : Ctx) (tr : Trace) : Exit × Trace :=
  match chroot_dance w c tr with
  | (some e, tr) => (e, tr)
  | (none, tr) => run_child p w c tr

/-- `main` (init.c:255-449): how the run ends and everything it did. -/
def main (p : Proc) (w : World) : Exit × Trace :=
  match main_init p w [] with
  | (.error e, tr) => (e, tr)
  | (.ok c, tr) =>
    let ((mounted, loopmounted), tr) := detect_mounts w c.child_root tr
    match unmount_step p w c mounted loopmounted tr with
    | (.error e, tr) => (e, tr)
    | (.ok mounted, tr) =>
      match setup_step p w c mounted loopmounted tr with
      | (some e, tr) => (e, tr)
      | (none, tr) => enter_jail p w c tr

/-! ## What a trace means for descriptors and loop devices -/

/-- The descriptor table and the bound loop devices, as far as a trace tells. -/
structure Kernel where
  /-- Open descriptors, each with the path it was opened on. -/
  fds : List (Int × String)
  /-- Device nodes bound to a backing file. -/
  bound : List String
deriving DecidableEq, Repr

/-- Effect of one answered call: a successful `open` adds a descriptor, a successful
`close` removes it, a successful `LOOP_SET_FD` binds the device the descriptor is open
on, a successful `LOOP_CLR_FD` unbinds it.  No other call of the program touches either. -/
def Kernel.step (k : Kernel) (e : Event) : Kernel :=
  match e with
  | (.open_ path _ _, r) =>
    if 0 ≤ r.ret then { k with fds := (r.ret, path) :: k.fds } else k
  | (.close fd, r) =>
    if r.ret = 0 then { k with fds := k.fds.filter (fun d => d.1 != fd) } else k
  | (.ioctl_set_fd fd _, r) =>
    if 0 ≤ r.ret then
      match k.fds.lookup fd with
      | some dev => { k with bound := dev :: k.bound }
      | none => k
    else k
  | (.ioctl_clr_fd fd, r) =>
    if 0 ≤ r.ret then
      match k.fds.lookup fd with
      | some dev => { k with bound := k.bound.filter (fun b => b != dev) }
      | none => k
    else k
  | _ => k

/-- The kernel state after a trace. -/
def Kernel.run (k : Kernel) (tr : Trace) : Kernel := tr.foldl Kernel.step k

/-! ## Concrete worlds -/

def EAGAIN : Nat := 11
def EACCES : Nat := 13

/-- Loop device 0 is free and the backing file opens, `LOOP_SET_FD` is accepted, and
`LOOP_SET_STATUS64` is rejected with EAGAIN. -/
def world_set_status_rejected : World := fun _ c =>
  match c with
  | .open_ "/dev/block/loop0" _ _ => Resp.val 3
  | .open_ _ _ _ => Resp.val 4
  | .ioctl_get_status _ => Resp.fail ENXIO
  | .ioctl_set_status _ _ => Resp.fail EAGAIN
  | _ => Resp.ok

/-- The status query on loop device 0 is refused with EACCES; every other call succeeds. -/
def world_status_denied : World := fun _ c =>
  match c with
  | .open_ "/dev/block/loop0" _ _ => Resp.val 3
  | .open_ _ _ _ => Resp.val 4
  | .ioctl_get_status _ => Resp.fail EACCES
  | _ => Resp.ok


/-- A world whose mount table is `tbl` at every read; every other call succeeds. -/
def mounts_world (tbl : List mntent) : World := fun _ c =>
  match c with
  | .read_mounts => Resp.mounts tbl
  | _ => Resp.ok

/-- The synthetic table of the specification: `/jail` on a loop device with its inner
`run` mount. -/
def jail_table : List mntent :=
  [⟨"/dev/block/loop3", "/jail"⟩, ⟨"tmpfs", "/jail/run"⟩]


/-! ## Kinds of calls -/

/-- An explicit target: `-d`/`--dir` or `-t`/`--target`. -/
def Opt.is_target : Opt → Bool
  | .d _ => true
  | .t _ => true
  | _ => false

/-- The calls of first-time setup and teardown: `mknod`, `mount`, `umount2`, the loop
`ioctl`s, `mkdir`, `rmdir`, and the calls `copy` is made of. -/
def Call.setup : Call → Bool
  | .mknod _ _ _ => true
  | .mount _ _ _ _ _ => true
  | .umount2 _ _ => true
  | .ioctl_get_status _ => true
  | .ioctl_set_fd _ _ => true
  | .ioctl_set_status _ _ => true
  | .ioctl_clr_fd _ => true
  | .mkdir _ _ => true
  | .rmdir _ => true
  | .open_ _ _ _ => true
  | .fstat _ => true
  | .sendfile _ _ _ => true
  | .close _ => true
  | _ => false

/-- The calls that change the file system, the mount table, a loop device, or the
working or root directory: those of `Call.setup`, `chown`, `chmod`, `chdir`, `chroot`. -/
def Call.mutates (c : Call) : Bool :=
  c.setup ||
    match c with
    | .chown _ _ _ => true
    | .chmod _ _ => true
    | .chdir _ => true
    | .chroot _ => true
    | _ => false

/-- A process of uid 2000 running its own copy `/data/local/tmp/init` of the tool under
the name of the installed one. -/
def forged_proc : Proc :=
  { uid := 2000, euid := 2000, gid := 2000, exe := "/data/local/tmp/init",
    argv0 := "/data/botbrew/init", opts := [], cmd := [] }

def EPERM : Nat := 1

/-- The jail `/data/botbrew` is a root-owned directory that is already mounted, the
installed `/data/botbrew/init` belongs to root, the copy `/data/local/tmp/init`
belongs to uid 2000.  The kernel answers `chroot` with EPERM unless `privileged`. -/
def jail_world (privileged : Bool) : World := fun _ c =>
  match c with
  | .dirname "/data/botbrew/init" => Resp.string "/data/botbrew"
  | .dirname "/data/local/tmp/init" => Resp.string "/data/local/tmp"
  | .realpath "/data/botbrew" => Resp.string "/data/botbrew"
  | .realpath "/data/local/tmp" => Resp.string "/data/local/tmp"
  | .lstat "/data/botbrew/init" => Resp.stat ⟨S_IFREG ||| 0o4755, 0, 0, 1000, 90000⟩
  | .stat "/data/botbrew/init" => Resp.stat ⟨S_IFREG ||| 0o4755, 0, 0, 1000, 90000⟩
  | .lstat "/data/local/tmp/init" => Resp.stat ⟨S_IFREG ||| 0o755, 2000, 2000, 2000, 90000⟩
  | .stat "/data/local/tmp/init" => Resp.stat ⟨S_IFREG ||| 0o755, 2000, 2000, 2000, 90000⟩
  | .stat "/data/botbrew" => Resp.stat ⟨S_IFDIR ||| 0o755, 0, 0, 1000, 4096⟩
  | .read_mounts =>
    Resp.mounts [⟨"rootfs", "/"⟩, ⟨"/dev/block/mmcblk0p2", "/data/botbrew"⟩]
  | .getcwd => Resp.string "/"
  | .chroot _ => if privileged then Resp.ok else Resp.fail EPERM
  | _ => Resp.ok

/-- A process of uid 2000 asking to unmount an explicit target. -/
def nonroot_target_proc : Proc :=
  { uid := 2000, euid := 0, gid := 2000, exe := "/data/botbrew/init",
    argv0 := "/data/botbrew/init", opts := [.u, .t "/system"], cmd := [] }

/-- A process of uid 2000 running its own copy of the tool under its own name. -/
def own_copy_proc : Proc :=
  { uid := 2000, euid := 2000, gid := 2000, exe := "/data/local/tmp/init",
    argv0 := "/data/local/tmp/init", opts := [.r], cmd := ["/bin/sh"] }


/-- The installed `/jail/init` is newer than the running `/sdcard/init`, belongs to uid
1000 and is group-writable without the setuid bit. -/
def stale_mode_world : World := fun _ c =>
  match c with
  | .stat "/sdcard/init" => Resp.stat ⟨S_IFREG ||| 0o755, 0, 0, 100, 90000⟩
  | .stat "/jail/init" => Resp.stat ⟨S_IFREG ||| 0o775, 1000, 1000, 200, 90000⟩
  | _ => Resp.ok


/-- A call that is no part of setup or teardown and no `chown`/`chmod` of `self`. -/
def Call.spares (self : String) (c : Call) : Prop :=
  c.setup = false ∧ (∀ u g, c ≠ .chown self u g) ∧ (∀ m, c ≠ .chmod self m)


/-- The trace `tr'` is `tr` followed by calls that all satisfy `Q`. -/
def Trace.grows (Q : Call → Prop) (tr tr' : Trace) : Prop :=
  ∃ ext, tr' = tr ++ ext ∧ ∀ e ∈ ext, Q e.1

/-- A call other than those of setup and teardown, `chown` and `chmod`. -/
def Call.quiet (c : Call) : Prop :=
  c.setup = false ∧ (∀ s u g, c ≠ .chown s u g) ∧ (∀ s m, c ≠ .chmod s m)


/-- Root re-invokes the installed tool on the jail `/data/botbrew`. -/
def reinvoke_proc : Proc :=
  { uid := 0, euid := 0, gid := 0, exe := "/data/botbrew/init",
    argv0 := "/data/botbrew/init", opts := [], cmd := ["/bin/sh", "-l"] }

end Botbrew

/-! # Theorems -/

namespace Botbrew

/-! ## Lemmas on C strings -/

theorem read_cstr_append (s rest : List Char) (hs : NUL ∉ s) :
    read_cstr (s ++ NUL :: rest) = s := by
  induction s with
  | nil => simp [read_cstr]
  | cons c cs ih =>
    have hc : c ≠ NUL := fun h => hs (by simp [h])
    have hcs : NUL ∉ cs := fun h => hs (by simp [h])
    have := ih hcs
    simp only [read_cstr] at this ⊢
    simp [List.takeWhile_cons, hc, this]

theorem sizeof_lit_pred (s : String) : sizeof_lit s - 1 = s.data.length := by
  simp [sizeof_lit]

theorem cstr_take_length (s : List Char) : (cstr s).take s.length = s := by
  simp [cstr]

theorem strstr_none (needle : List Char) :
    ∀ hay : List Char, ¬ needle <:+: hay → strstr hay needle = none := by
  intro hay
  induction hay with
  | nil =>
    intro h
    have hp : ¬ needle.isPrefixOf [] = true := fun hp =>
      h (List.isPrefixOf_iff_prefix.mp hp).isInfix
    simp [strstr, hp]
  | cons c cs ih =>
    intro h
    have hp : ¬ needle.isPrefixOf (c :: cs) = true := fun hp =>
      h (List.isPrefixOf_iff_prefix.mp hp).isInfix
    have ht : ¬ needle <:+: cs := fun ht => h (List.infix_cons ht)
    simp [strstr, hp, ih ht]

theorem strstr_of_prefix (needle hay : List Char) (h : needle <+: hay) :
    strstr hay needle = some 0 := by
  have hp : needle.isPrefixOf hay = true := List.isPrefixOf_iff_prefix.mpr h
  cases hay with
  | nil => simp only [strstr, hp, if_true]
  | cons c cs => simp only [strstr, hp, if_true]

theorem strstr_first (needle b : List Char) :
    ∀ a : List Char,
      (∀ a' b', a ++ (needle ++ b) = a' ++ (needle ++ b') → a.length ≤ a'.length) →
      strstr (a ++ (needle ++ b)) needle = some a.length := by
  intro a
  induction a with
  | nil =>
    intro _
    exact strstr_of_prefix _ _ (List.prefix_append _ _)
  | cons x a ih =>
    intro hmin
    have hp : ¬ needle.isPrefixOf (x :: (a ++ (needle ++ b))) = true := by
      intro hp
      obtain ⟨t, ht⟩ := List.isPrefixOf_iff_prefix.mp hp
      have := hmin [] t (by simp [ht])
      simp at this
    have hmin2 : ∀ a' b', a ++ (needle ++ b) = a' ++ (needle ++ b') →
        a.length ≤ a'.length := by
      intro a' b' h
      have := hmin (x :: a') b' (by simp [h])
      simpa using this
    have := ih hmin2
    rw [List.cons_append, strstr, if_neg hp, this]
    rfl

theorem env_path_no_nul : NUL ∉ ENV_PATH.data := by
  set_option maxRecDepth 100000 in decide

theorem memcpy_at_end (pre rest bytes : List Char) :
    memcpy (pre ++ rest) pre.length bytes bytes.length
      = (pre ++ bytes) ++ rest.drop bytes.length := by
  simp [memcpy, List.take_left, List.drop_append_eq_append_drop]

theorem run_writes_two (heap A B : List Char) :
    run_writes heap [⟨0, A⟩, ⟨A.length, B⟩]
      = (A ++ B) ++ (heap.drop A.length).drop B.length := by
  have h1 := memcpy_at_end [] heap A
  have h2 := memcpy_at_end A (heap.drop A.length) B
  simp only [List.nil_append, List.length_nil] at h1
  simp only [run_writes, List.foldl, h1, h2]

theorem run_writes_three (heap A B C : List Char) :
    run_writes heap [⟨0, A⟩, ⟨A.length, B⟩, ⟨A.length + B.length, C⟩]
      = (A ++ B ++ C) ++ ((heap.drop A.length).drop B.length).drop C.length := by
  have h1 := memcpy_at_end [] heap A
  have h2 := memcpy_at_end A (heap.drop A.length) B
  have h3 := memcpy_at_end (A ++ B) ((heap.drop A.length).drop B.length) C
  simp only [List.nil_append, List.length_nil] at h1
  simp only [List.length_append] at h3
  simp only [run_writes, List.foldl, h1, h2, h3]

theorem path_buf_plain (p : List Char) (hs : strstr p "::".data = none) :
    (path_buf p).writes
      = [⟨0, ENV_PATH.data ++ ":".data⟩, ⟨(ENV_PATH.data ++ ":".data).length, cstr p⟩] := by
  have hlen2 : (cstr p).take (p.length + 1) = cstr p := by
    simp [cstr]
  simp only [path_buf, hs, hlen2, sizeof_lit_pred, String.data_append, cstr_take_length]

theorem path_buf_split (a b : List Char)
    (hs : strstr (a ++ ("::".data ++ b)) "::".data = some a.length) :
    (path_buf (a ++ ("::".data ++ b))).writes
      = [⟨0, a ++ ":".data⟩, ⟨(a ++ ":".data).length, ENV_PATH.data⟩,
         ⟨(a ++ ":".data).length + ENV_PATH.data.length, cstr (":".data ++ b)⟩] := by
  have e1 : (cstr (a ++ ("::".data ++ b))).take (a.length + 1) = a ++ ":".data := by
    have : cstr (a ++ ("::".data ++ b)) = (a ++ ":".data) ++ (":".data ++ b ++ [NUL]) := by
      simp [cstr]
    rw [this]
    exact List.take_left' (by simp)
  have e2 : (cstr ENV_PATH.data).take (sizeof_lit ENV_PATH - 1) = ENV_PATH.data := by
    rw [sizeof_lit_pred]; exact cstr_take_length _
  have e3 : ((cstr (a ++ ("::".data ++ b))).drop (a.length + 1)).take
      ((a ++ ("::".data ++ b)).length - (a.length + 1) + 1) = cstr (":".data ++ b) := by
    have : cstr (a ++ ("::".data ++ b)) = (a ++ ":".data) ++ cstr (":".data ++ b) := by
      simp [cstr]
    rw [this, List.drop_left' (by simp)]
    apply List.take_of_length_le
    simp [cstr]
    omega
  have e4 : a.length + 1 + sizeof_lit ENV_PATH - 1
      = (a ++ ":".data).length + ENV_PATH.data.length := by
    simp [sizeof_lit]
  have e5 : (a ++ ":".data).length = a.length + 1 := by simp
  simp only [path_buf, hs, e1, e2, e3, e4, e5]

theorem new_path_plain (heap p : List Char) (hp : NUL ∉ p) (hne : p ≠ [])
    (hs : strstr p "::".data = none) :
    new_path heap (some p) = ENV_PATH.data ++ ":".data ++ p := by
  obtain ⟨c, cs, rfl⟩ := List.exists_cons_of_ne_nil hne
  have hA : NUL ∉ ENV_PATH.data ++ ":".data ++ (c :: cs) := by
    intro h
    rcases List.mem_append.mp h with h | h
    · rcases List.mem_append.mp h with h | h
      · exact env_path_no_nul h
      · revert h; decide
    · exact hp h
  simp only [new_path, path_buf_plain _ hs, run_writes_two, cstr]
  have := read_cstr_append _
    (List.drop ([c] ++ cs ++ [NUL]).length
      (List.drop (ENV_PATH.data ++ ":".data).length heap)) hA
  simpa [List.append_assoc] using this

theorem new_path_split (heap a b : List Char) (hp : NUL ∉ a ++ ("::".data ++ b))
    (hs : strstr (a ++ ("::".data ++ b)) "::".data = some a.length) :
    new_path heap (some (a ++ ("::".data ++ b)))
      = a ++ ":".data ++ ENV_PATH.data ++ ":".data ++ b := by
  have hA : NUL ∉ a ++ ":".data ++ ENV_PATH.data ++ ":".data ++ b := by
    intro h
    simp only [List.mem_append] at h hp
    rcases h with (((h | h) | h) | h) | h
    · exact hp (Or.inl h)
    · revert h; decide
    · exact env_path_no_nul h
    · revert h; decide
    · exact hp (Or.inr (Or.inr h))
  have hne : a ++ ("::".data ++ b) ≠ [] := by simp
  obtain ⟨c, cs, hc⟩ := List.exists_cons_of_ne_nil hne
  have hnp : new_path heap (some (a ++ ("::".data ++ b)))
      = read_cstr (run_writes heap (path_buf (a ++ ("::".data ++ b))).writes) := by
    rw [hc]; rfl
  rw [hnp, path_buf_split a b hs, run_writes_three]
  have := read_cstr_append _
    (List.drop (cstr (":".data ++ b)).length
      (List.drop ENV_PATH.data.length (List.drop (a ++ ":".data).length heap))) hA
  simpa [cstr, List.append_assoc] using this

theorem split_minimal (a b : List Char) (h : ¬ "::".data <:+: a ++ ":".data) :
    ∀ a' b', a ++ "::".data ++ b = a' ++ "::".data ++ b' → a.length ≤ a'.length := by
  intro a' b' he
  by_contra hlt
  apply h
  have h1 : a' ++ "::".data <+: a ++ "::".data ++ b := by
    rw [he]; exact List.prefix_append _ _
  have h2 : a ++ ":".data <+: a ++ "::".data ++ b := by
    refine ⟨":".data ++ b, ?_⟩
    simp
  have h3 : a' ++ "::".data <+: a ++ ":".data := by
    apply List.prefix_of_prefix_length_le h1 h2
    have e2 : (a' ++ "::".data).length = a'.length + 2 := by simp
    have e1 : (a ++ ":".data).length = a.length + 1 := by simp
    omega
  exact (List.suffix_append _ _).isInfix.trans h3.isInfix

theorem loop_dev_decode : ∀ i, i < LOOP_MAX →
    dev_major (loop_dev i) = 7 ∧ dev_minor (loop_dev i) = i := by
  set_option maxRecDepth 100000 in decide!

/-! ## Claims on the pure parts -/

/-- C9. For every index `i < LOOP_MAX` the value `loop_dev i` that `loopdev_get` passes to
`mknod` decodes to major 7 and minor `i`, and two indices below `LOOP_MAX` with the same
device number are equal. -/
theorem C9_loop_dev_encoding (i j : Nat) (hi : i < LOOP_MAX) (hj : j < LOOP_MAX) :
    dev_major (loop_dev i) = 7 ∧ dev_minor (loop_dev i) = i ∧
      (loop_dev i = loop_dev j → i = j) := by
  refine ⟨(loop_dev_decode i hi).1, (loop_dev_decode i hi).2, fun h => ?_⟩
  have a := (loop_dev_decode i hi).2
  have b := (loop_dev_decode j hj).2
  rw [h] at a
  exact a.symm.trans b

theorem C9_loop_dev_encoding_witness :
    4095 < LOOP_MAX ∧ dev_major (loop_dev 4095) = 7 ∧ dev_minor (loop_dev 4095) = 4095 ∧
      (loop_dev 4095 = loop_dev 256 → 4095 = 256) :=
  ⟨by decide, C9_loop_dev_encoding 4095 256 (by decide) (by decide)⟩

/-- C10. At the inherited value `PATH=/bin` (non-empty, no "::") the buffer has
`sizeof(ENV_PATH) + 4 = 123` bytes, and the second `memcpy` writes the five bytes of
"/bin" with its NUL at offset 119: the NUL lands at offset 123, one past the block. -/
theorem C10_path_buffer_overflow :
    (path_buf "/bin".data).alloc = sizeof_lit ENV_PATH + "/bin".data.length ∧
    (path_buf "/bin".data).alloc = 123 ∧
    (path_buf "/bin".data).writes
      = [⟨0, (ENV_PATH ++ ":").data⟩, ⟨119, "/bin".data ++ [NUL]⟩] ∧
    ¬ (∀ w ∈ (path_buf "/bin".data).writes,
        w.off + w.bytes.length ≤ (path_buf "/bin".data).alloc) := by
  set_option maxRecDepth 100000 in decide

/-! ## Loop devices -/

/-- C5. With loop device 0 free, the backing file opened and `LOOP_SET_FD` accepted, a
rejected `LOOP_SET_STATUS64` makes `loopdev_get` return NULL after closing both
descriptors, without any `LOOP_CLR_FD`: device 0 stays bound. -/
theorem C5_set_status_failure_leaves_device_bound :
    (loopdev_get world_set_status_rejected "/data/botbrew.img" []).1 = none ∧
    (loopdev_get world_set_status_rejected "/data/botbrew.img" []).2.map Prod.fst
      = [ .mknod "/dev/block/loop0" (0o660 ||| S_IFBLK) (loop_dev 0),
          .open_ "/dev/block/loop0" O_RDWR 0,
          .ioctl_get_status 3,
          .open_ "/data/botbrew.img" O_RDWR 0,
          .ioctl_set_fd 3 4,
          .ioctl_set_status 3 "/data/botbrew.img",
          .close 4,
          .close 3 ] ∧
    Kernel.run ⟨[], []⟩ (loopdev_get world_set_status_rejected "/data/botbrew.img" []).2
      = ⟨[], ["/dev/block/loop0"]⟩ := by
  decide

/-- C8. When the status query on loop device 0 fails with EACCES (not ENXIO),
`loopdev_get` still binds the backing file to device 0 and returns its path. -/
theorem C8_binds_device_after_other_error :
    (loopdev_get world_status_denied "/data/botbrew.img" []).1 = some "/dev/block/loop0" ∧
    (Call.ioctl_get_status 3, Resp.fail EACCES)
      ∈ (loopdev_get world_status_denied "/data/botbrew.img" []).2 ∧
    EACCES ≠ ENXIO ∧
    Kernel.run ⟨[], []⟩ (loopdev_get world_status_denied "/data/botbrew.img" []).2
      = ⟨[], ["/dev/block/loop0"]⟩ := by
  decide

/-! ## Mount-state detection -/

theorem strncmp_eq_prefix (a b : String) :
    strncmp_eq a b (sizeof_lit b - 1) = true ↔ b.data <+: a.data := by
  rw [sizeof_lit_pred, List.prefix_iff_eq_take]
  simp only [strncmp_eq, List.take_length, beq_iff_eq]
  exact eq_comm

theorem scan_run_iff (s : String) (l : List mntent) :
    scan_run s l = true ↔ ∃ e ∈ l, e.mnt_dir = s := by
  induction l with
  | nil => simp [scan_run]
  | cons m ms ih =>
    by_cases h : m.mnt_dir = s
    · simp [scan_run, h]
    · simp [scan_run, h, ih]

/-- The first-fit reading of the outer loop: what `scan_mounts` returns on the rest `l`
of the first stream when every later read of the table yields `tbl`. -/
theorem scan_mounts_spec (w : World) (tbl : List mntent) (t : String)
    (hw : ∀ h, (w h .read_mounts).ret ≠ 0 ∧ (w h .read_mounts).mnt = tbl) :
    ∀ (l : List mntent) (tr : Trace),
      (l.find? (fun e => decide (e.mnt_dir = t)) = none →
        (scan_mounts w t l tr).1 = (false, false)) ∧
      (∀ e, l.find? (fun e => decide (e.mnt_dir = t)) = some e →
        (("/dev/block/loop".data <+: e.mnt_fsname.data ∨
            "/dev/loop".data <+: e.mnt_fsname.data) →
          (scan_mounts w t l tr).1.2 = true ∧
          ((scan_mounts w t l tr).1.1 = true ↔ ∃ e' ∈ tbl, e'.mnt_dir = t ++ "/run")) ∧
        (¬ ("/dev/block/loop".data <+: e.mnt_fsname.data ∨
            "/dev/loop".data <+: e.mnt_fsname.data) →
          (scan_mounts w t l tr).1 = (true, false))) := by
  intro l
  induction l with
  | nil => intro tr; simp [scan_mounts]
  | cons m ms ih =>
    intro tr
    by_cases hm : m.mnt_dir = t
    · have hf : (m :: ms).find? (fun e => decide (e.mnt_dir = t)) = some m := by
        simp [List.find?, hm]
      rw [hf]
      refine ⟨fun h => (by cases h), ?_⟩
      intro e he
      cases he
      constructor
      · intro hl
        have hl' : (strncmp_eq m.mnt_fsname "/dev/block/loop"
              (sizeof_lit "/dev/block/loop" - 1)
            || strncmp_eq m.mnt_fsname "/dev/loop" (sizeof_lit "/dev/loop" - 1)) = true := by
          rw [Bool.or_eq_true, strncmp_eq_prefix, strncmp_eq_prefix]
          exact hl
        have h1 := (hw tr).1
        simp only [scan_mounts, hm, ne_eq, not_true_eq_false, if_false, hl', if_true, sys,
          h1, (hw tr).2]
        exact ⟨rfl, scan_run_iff _ _⟩
      · intro hl
        have hl' : ¬ (strncmp_eq m.mnt_fsname "/dev/block/loop"
              (sizeof_lit "/dev/block/loop" - 1)
            || strncmp_eq m.mnt_fsname "/dev/loop" (sizeof_lit "/dev/loop" - 1)) = true := by
          rw [Bool.or_eq_true, strncmp_eq_prefix, strncmp_eq_prefix]
          exact hl
        simp [scan_mounts, hm, hl']
    · have hf : (m :: ms).find? (fun e => decide (e.mnt_dir = t))
          = ms.find? (fun e => decide (e.mnt_dir = t)) := by
        simp [List.find?, hm]
      rw [hf]
      have hs : scan_mounts w t (m :: ms) tr = scan_mounts w t ms tr := by
        simp [scan_mounts, hm]
      rw [hs]
      exact ih tr

/-- C1. Mount-state detection (init.c:327-356) when every read of the mount table yields
`tbl`: with `e` the first entry whose `mnt_dir` equals the target `t`, the result
`(mounted, loopmounted)` is `(0,0)` when there is no such entry; when `e.mnt_fsname`
starts with "/dev/block/loop" or "/dev/loop", `loopmounted = 1` and `mounted = 1` exactly
when some entry of `tbl` has `mnt_dir = t ++ "/run"`; otherwise it is `(1,0)`.  On the
table `/jail` on `/dev/block/loop3`, `/jail/run` on `tmpfs` and `t = "/jail"` the result
is `(1,1)`, and without the second entry it is `(0,1)`. -/
theorem C1_detect_mounts (w : World) (tbl : List mntent) (t : String) (tr : Trace)
    (hw : ∀ h, (w h .read_mounts).ret ≠ 0 ∧ (w h .read_mounts).mnt = tbl) :
    (tbl.find? (fun e => decide (e.mnt_dir = t)) = none →
      (detect_mounts w t tr).1 = (false, false)) ∧
    (∀ e, tbl.find? (fun e => decide (e.mnt_dir = t)) = some e →
      (("/dev/block/loop".data <+: e.mnt_fsname.data ∨
          "/dev/loop".data <+: e.mnt_fsname.data) →
        (detect_mounts w t tr).1.2 = true ∧
        ((detect_mounts w t tr).1.1 = true ↔ ∃ e' ∈ tbl, e'.mnt_dir = t ++ "/run")) ∧
      (¬ ("/dev/block/loop".data <+: e.mnt_fsname.data ∨
          "/dev/loop".data <+: e.mnt_fsname.data) →
        (detect_mounts w t tr).1 = (true, false))) ∧
    (detect_mounts (mounts_world jail_table) "/jail" []).1 = (true, true) ∧
    (detect_mounts (mounts_world (jail_table.take 1)) "/jail" []).1 = (false, true) := by
  have h1 := (hw tr).1
  have hd : detect_mounts w t tr
      = scan_mounts w t tbl (tr ++ [(.read_mounts, w tr .read_mounts)]) := by
    simp only [detect_mounts, sys, h1, ne_eq, not_false_eq_true, if_true, (hw tr).2]
  have hs := scan_mounts_spec w tbl t hw tbl (tr ++ [(.read_mounts, w tr .read_mounts)])
  rw [← hd] at hs
  exact ⟨hs.1, hs.2, by decide, by decide⟩

theorem C1_detect_mounts_witness :
    (∀ h, (mounts_world jail_table h .read_mounts).ret ≠ 0 ∧
      (mounts_world jail_table h .read_mounts).mnt = jail_table) ∧
    (detect_mounts (mounts_world jail_table) "/jail" []).1.2 = true ∧
    ((detect_mounts (mounts_world jail_table) "/jail" []).1.1 = true ↔
      ∃ e' ∈ jail_table, e'.mnt_dir = "/jail" ++ "/run") :=
  ⟨fun _ => ⟨by simp [mounts_world, Resp.mounts], rfl⟩,
   ((C1_detect_mounts (mounts_world jail_table) jail_table "/jail" []
      (fun _ => ⟨by simp [mounts_world, Resp.mounts], rfl⟩)).2.1
        ⟨"/dev/block/loop3", "/jail"⟩ (by decide)).1
      (Or.inl (by decide))⟩

/-! ## Privilege checks of `main` -/

theorem getopt_loop_nonroot (uid : Nat) (w : World) (huid : uid ≠ 0) :
    ∀ (os : List Opt) (cr : Option String) (rm um : Bool) (tr : Trace),
      (getopt_loop uid w os cr rm um tr).2 = tr ∧
      (∀ e, (getopt_loop uid w os cr rm um tr).1 = .error e →
        e = .status EXIT_FAILURE (some .dir_needs_root) ∨
        e = .status EXIT_FAILURE (some .usage)) ∧
      ((∃ o ∈ os, o.is_target = true) →
        ∃ e, (getopt_loop uid w os cr rm um tr).1 = .error e) := by
  intro os
  induction os with
  | nil =>
    intro cr rm um tr
    simp [getopt_loop]
  | cons o os ih =>
    intro cr rm um tr
    cases o with
    | d a => simp [getopt_loop, huid]
    | t a => simp [getopt_loop, huid]
    | r =>
      have := ih cr true true tr
      simpa [getopt_loop, Opt.is_target] using this
    | u =>
      have := ih cr rm true tr
      simpa [getopt_loop, Opt.is_target] using this
    | other => simp [getopt_loop]

theorem main_init_head (p : Proc) (w : World) :
    main_init p w [] =
      let tr0 : Trace :=
        [(.dirname p.argv0, w [] (.dirname p.argv0)),
         (.realpath (w [] (.dirname p.argv0)).str,
           w [(.dirname p.argv0, w [] (.dirname p.argv0))]
             (.realpath (w [] (.dirname p.argv0)).str))]
      let cr0 : Option String :=
        if (w [(.dirname p.argv0, w [] (.dirname p.argv0))]
             (.realpath (w [] (.dirname p.argv0)).str)).ret ≠ 0 then
          some (w [(.dirname p.argv0, w [] (.dirname p.argv0))]
             (.realpath (w [] (.dirname p.argv0)).str)).str
        else none
      match getopt_loop p.uid w p.opts cr0 false false tr0 with
      | (.error e, tr) => (.error e, tr)
      | (.ok (child_root, remount, unmount), tr) =>
        match check_self p.uid w p.argv0 tr with
        | (some e, tr) => (.error e, tr)
        | (none, tr) => check_target w child_root remount unmount tr := by
  rfl

/-- C2. For every invocation with a non-zero real uid whose options contain `-d` or `-t`
anywhere, `main` ends with status `EXIT_FAILURE` (after the `--dir` diagnostic or the
usage text) and none of the calls it made is a `mknod`, `mount`, `umount2`, loop
`ioctl`, `mkdir`, `rmdir`, `chown`, `chmod`, part of `copy`, `chdir` or `chroot`. -/
theorem C2_nonroot_target_rejected (p : Proc) (w : World) (huid : p.uid ≠ 0)
    (hopt : ∃ o ∈ p.opts, o.is_target = true) :
    ((main p w).1 = .status EXIT_FAILURE (some .dir_needs_root) ∨
      (main p w).1 = .status EXIT_FAILURE (some .usage)) ∧
    ∀ e ∈ (main p w).2, e.1.mutates = false := by
  have hi := main_init_head p w
  simp only at hi
  generalize htr0 : ([(Call.dirname p.argv0, w [] (.dirname p.argv0)),
         (Call.realpath (w [] (.dirname p.argv0)).str,
           w [(.dirname p.argv0, w [] (.dirname p.argv0))]
             (.realpath (w [] (.dirname p.argv0)).str))] : Trace) = tr0 at hi
  have hmut : ∀ e ∈ tr0, e.1.mutates = false := by
    subst htr0
    intro e he
    simp only [List.mem_cons, List.mem_singleton, List.not_mem_nil, or_false] at he
    rcases he with rfl | rfl <;> rfl
  generalize hcr0 : (if (w [(Call.dirname p.argv0, w [] (.dirname p.argv0))]
             (.realpath (w [] (.dirname p.argv0)).str)).ret ≠ 0 then
          some (w [(Call.dirname p.argv0, w [] (.dirname p.argv0))]
             (.realpath (w [] (.dirname p.argv0)).str)).str
        else none : Option String) = cr0 at hi
  obtain ⟨h2, herr, hex⟩ := getopt_loop_nonroot p.uid w huid p.opts cr0 false false tr0
  obtain ⟨e, he⟩ := hex hopt
  have hg : getopt_loop p.uid w p.opts cr0 false false tr0 = (.error e, tr0) :=
    Prod.ext he h2
  rw [hg] at hi
  have hm : main p w = (e, tr0) := by
    simp only [main, hi]
  rw [hm]
  exact ⟨herr e he, hmut⟩


theorem C2_nonroot_target_rejected_witness :
    nonroot_target_proc.uid ≠ 0 ∧
    (∃ o ∈ nonroot_target_proc.opts, o.is_target = true) ∧
    ((main nonroot_target_proc (jail_world true)).1
        = .status EXIT_FAILURE (some .dir_needs_root) ∨
      (main nonroot_target_proc (jail_world true)).1 = .status EXIT_FAILURE (some .usage)) ∧
    ∀ e ∈ (main nonroot_target_proc (jail_world true)).2, e.1.mutates = false :=
  ⟨by decide, by decide,
   C2_nonroot_target_rejected nonroot_target_proc (jail_world true) (by decide) (by decide)⟩

/-- C3 as stated fails: a process of uid 2000 runs its own copy `/data/local/tmp/init`
(owned by uid 2000 at every moment) with `argv[0]` set to the root-owned
`/data/botbrew/init`.  `main` passes the ownership check and calls `chroot(".")`; when
the kernel refuses, `main` fails only then, and when the process has the privilege,
`main` goes on to `execvp`. -/
theorem C3_forged_argv0_reaches_chroot :
    forged_proc.uid ≠ 0 ∧
    (∀ b h, (jail_world b h (.lstat forged_proc.exe)).ret = 0 ∧
      (jail_world b h (.lstat forged_proc.exe)).st.st_uid = 2000 ∧
      (jail_world b h (.stat forged_proc.exe)).ret = 0 ∧
      (jail_world b h (.stat forged_proc.exe)).st.st_uid = 2000) ∧
    (main forged_proc (jail_world false)).1 = .status EXIT_FAILURE (some .cannot_chroot) ∧
    (main forged_proc (jail_world false)).2.map Prod.fst
      = [.dirname "/data/botbrew/init", .realpath "/data/botbrew",
         .lstat "/data/botbrew/init", .stat "/data/botbrew", .read_mounts,
         .getcwd, .chdir "/data/botbrew", .chroot "."] ∧
    (main { forged_proc with euid := 0 } (jail_world true)).1 = .replaced ∧
    Call.chroot "." ∈ (main { forged_proc with euid := 0 } (jail_world true)).2.map Prod.fst :=
  ⟨by decide, fun _ _ => ⟨rfl, rfl, rfl, rfl⟩, by decide, by decide, by decide, by decide⟩

/-- C3, amended. For every invocation with a non-zero real uid: if `lstat` of `argv[0]`
as given fails or reports an owner other than uid 0, `main` ends with status
`EXIT_FAILURE` and none of the calls it made is a `mount`, `umount2`, `mknod`, loop
`ioctl` or `chroot` (nor any other call of `Call.mutates`). -/
theorem C3_nonroot_unowned_argv0_rejected (p : Proc) (w : World) (huid : p.uid ≠ 0)
    (hown : ∀ h, (w h (.lstat p.argv0)).ret ≠ 0 ∨ (w h (.lstat p.argv0)).st.st_uid ≠ 0) :
    (∃ d, (main p w).1 = .status EXIT_FAILURE (some d)) ∧
    ∀ e ∈ (main p w).2, e.1.mutates = false := by
  have hi := main_init_head p w
  simp only at hi
  generalize htr0 : ([(Call.dirname p.argv0, w [] (.dirname p.argv0)),
         (Call.realpath (w [] (.dirname p.argv0)).str,
           w [(.dirname p.argv0, w [] (.dirname p.argv0))]
             (.realpath (w [] (.dirname p.argv0)).str))] : Trace) = tr0 at hi
  have hmut : ∀ e ∈ tr0, e.1.mutates = false := by
    subst htr0
    intro e he
    simp only [List.mem_cons, List.mem_singleton, List.not_mem_nil, or_false] at he
    rcases he with rfl | rfl <;> rfl
  generalize hcr0 : (if (w [(Call.dirname p.argv0, w [] (.dirname p.argv0))]
             (.realpath (w [] (.dirname p.argv0)).str)).ret ≠ 0 then
          some (w [(Call.dirname p.argv0, w [] (.dirname p.argv0))]
             (.realpath (w [] (.dirname p.argv0)).str)).str
        else none : Option String) = cr0 at hi
  obtain ⟨h2, herr, -⟩ := getopt_loop_nonroot p.uid w huid p.opts cr0 false false tr0
  cases hr : (getopt_loop p.uid w p.opts cr0 false false tr0).1 with
  | error e =>
    have hg : getopt_loop p.uid w p.opts cr0 false false tr0 = (.error e, tr0) :=
      Prod.ext hr h2
    rw [hg] at hi
    have hm : main p w = (e, tr0) := by
      simp only [main, hi]
    rw [hm]
    refine ⟨?_, hmut⟩
    rcases herr e hr with rfl | rfl <;> exact ⟨_, rfl⟩
  | ok x =>
    obtain ⟨cr, rm, um⟩ := x
    have hg : getopt_loop p.uid w p.opts cr0 false false tr0 = (.ok (cr, rm, um), tr0) :=
      Prod.ext hr h2
    rw [hg] at hi
    have hmut2 : ∀ e ∈ tr0 ++ [(Call.lstat p.argv0, w tr0 (.lstat p.argv0))],
        e.1.mutates = false := by
      intro e he
      rcases List.mem_append.mp he with he | he
      · exact hmut e he
      · simp only [List.mem_singleton] at he
        subst he
        rfl
    rcases hown tr0 with hret | hu
    · have hc : check_self p.uid w p.argv0 tr0
          = (some (.status EXIT_FAILURE (some .cannot_stat)),
              tr0 ++ [(.lstat p.argv0, w tr0 (.lstat p.argv0))]) := by
        simp [check_self, huid, sys, hret]
      simp only [hc] at hi
      have hm : main p w = (.status EXIT_FAILURE (some .cannot_stat),
          tr0 ++ [(.lstat p.argv0, w tr0 (.lstat p.argv0))]) := by
        simp only [main, hi]
      rw [hm]
      exact ⟨⟨_, rfl⟩, hmut2⟩
    · by_cases hret : (w tr0 (.lstat p.argv0)).ret = 0
      · have hc : check_self p.uid w p.argv0 tr0
            = (some (.status EXIT_FAILURE (some .not_owned_by_root)),
                tr0 ++ [(.lstat p.argv0, w tr0 (.lstat p.argv0))]) := by
          simp [check_self, huid, sys, hret, hu]
        simp only [hc] at hi
        have hm : main p w = (.status EXIT_FAILURE (some .not_owned_by_root),
            tr0 ++ [(.lstat p.argv0, w tr0 (.lstat p.argv0))]) := by
          simp only [main, hi]
        rw [hm]
        exact ⟨⟨_, rfl⟩, hmut2⟩
      · have hc : check_self p.uid w p.argv0 tr0
            = (some (.status EXIT_FAILURE (some .cannot_stat)),
                tr0 ++ [(.lstat p.argv0, w tr0 (.lstat p.argv0))]) := by
          simp [check_self, huid, sys, hret]
        simp only [hc] at hi
        have hm : main p w = (.status EXIT_FAILURE (some .cannot_stat),
            tr0 ++ [(.lstat p.argv0, w tr0 (.lstat p.argv0))]) := by
          simp only [main, hi]
        rw [hm]
        exact ⟨⟨_, rfl⟩, hmut2⟩

theorem C3_nonroot_unowned_argv0_rejected_witness :
    own_copy_proc.uid ≠ 0 ∧
    (∀ h, (jail_world false h (.lstat own_copy_proc.argv0)).ret ≠ 0 ∨
      (jail_world false h (.lstat own_copy_proc.argv0)).st.st_uid ≠ 0) ∧
    (∃ d, (main own_copy_proc (jail_world false)).1 = .status EXIT_FAILURE (some d)) ∧
    ∀ e ∈ (main own_copy_proc (jail_world false)).2, e.1.mutates = false :=
  ⟨by decide, fun _ => Or.inr (show (2000 : Nat) ≠ 0 by decide),
   C3_nonroot_unowned_argv0_rejected own_copy_proc (jail_world false) (by decide)
     (fun _ => Or.inr (show (2000 : Nat) ≠ 0 by decide))⟩

/-! ## Self-install -/

theorem install_setuid_spec (w : World) (self : String) (tr2 : Trace)
    (h2 : (w tr2 (.stat self)).ret = 0) :
    ∃ post, install_setuid w self tr2 = tr2 ++ (.stat self, w tr2 (.stat self)) :: post ∧
      (((w tr2 (.stat self)).st.st_uid ≠ 0 ∨ (w tr2 (.stat self)).st.st_gid ≠ 0) ↔
        Call.chown self 0 0 ∈ post.map Prod.fst) ∧
      (((w tr2 (.stat self)).st.st_mode &&& S_IWGRP ≠ 0 ∨
        (w tr2 (.stat self)).st.st_mode &&& S_IWOTH ≠ 0 ∨
        (w tr2 (.stat self)).st.st_mode &&& S_ISUID = 0) ↔
          Call.chmod self 0o4755 ∈ post.map Prod.fst) ∧
      ∀ e ∈ post, e.1 = .chown self 0 0 ∨ e.1 = .chmod self 0o4755 := by
  by_cases hu : (w tr2 (.stat self)).st.st_uid ≠ 0 ∨ (w tr2 (.stat self)).st.st_gid ≠ 0
  · by_cases hmo : (w tr2 (.stat self)).st.st_mode &&& S_IWGRP ≠ 0 ∨
        (w tr2 (.stat self)).st.st_mode &&& S_IWOTH ≠ 0 ∨
        (w tr2 (.stat self)).st.st_mode &&& S_ISUID = 0
    · refine ⟨[(.chown self 0 0,
          w (tr2 ++ [(.stat self, w tr2 (.stat self))]) (.chown self 0 0)),
        (.chmod self 0o4755, w (tr2 ++ [(.stat self, w tr2 (.stat self))] ++
          [(.chown self 0 0,
            w (tr2 ++ [(.stat self, w tr2 (.stat self))]) (.chown self 0 0))])
          (.chmod self 0o4755))], ?_, ?_, ?_, ?_⟩
      · simp only [install_setuid, sys, h2, if_true, if_pos hu, if_pos hmo]
        simp
      · simp [hu]
      · simp [hmo]
      · simp
    · refine ⟨[(.chown self 0 0,
          w (tr2 ++ [(.stat self, w tr2 (.stat self))]) (.chown self 0 0))],
        ?_, ?_, ?_, ?_⟩
      · simp only [install_setuid, sys, h2, if_true, if_pos hu, if_neg hmo]
        simp
      · simp [hu]
      · simp [hmo]
      · simp
  · by_cases hmo : (w tr2 (.stat self)).st.st_mode &&& S_IWGRP ≠ 0 ∨
        (w tr2 (.stat self)).st.st_mode &&& S_IWOTH ≠ 0 ∨
        (w tr2 (.stat self)).st.st_mode &&& S_ISUID = 0
    · refine ⟨[(.chmod self 0o4755,
          w (tr2 ++ [(.stat self, w tr2 (.stat self))]) (.chmod self 0o4755))],
        ?_, ?_, ?_, ?_⟩
      · simp only [install_setuid, sys, h2, if_true, if_neg hu, if_pos hmo]
        simp
      · simp [hu]
      · simp [hmo]
      · simp
    · refine ⟨[], ?_, ?_, ?_, ?_⟩
      · simp only [install_setuid, sys, h2, if_true, if_neg hu, if_neg hmo]
      · simp [hu]
      · simp [hmo]
      · simp

theorem ne_append_init (a : String) : a ≠ a ++ "/init" := by
  intro h
  have h2 := congrArg String.length h
  rw [String.length_append] at h2
  have : "/init".length = 5 := by decide
  omega

theorem getopt_loop_ok (uid : Nat) (w : World) :
    ∀ (os : List Opt) (cr : Option String) (rm um : Bool) (tr : Trace)
      (cr' : Option String) (rm' um' : Bool) (tr' : Trace),
      getopt_loop uid w os cr rm um tr = (.ok (cr', rm', um'), tr') →
      (um' = true → um = true ∨ Opt.r ∈ os ∨ Opt.u ∈ os) ∧
      (∀ e ∈ tr', e ∈ tr ∨ ∃ s, e.1 = .realpath s) := by
  intro os
  induction os with
  | nil =>
    intro cr rm um tr cr' rm' um' tr' h
    simp only [getopt_loop, Prod.mk.injEq, Except.ok.injEq] at h
    obtain ⟨⟨-, -, rfl⟩, rfl⟩ := h
    exact ⟨fun h => Or.inl h, fun e he => Or.inl he⟩
  | cons o os ih =>
    intro cr rm um tr cr' rm' um' tr' h
    cases o with
    | d a =>
      by_cases hu : uid = 0
      · subst hu
        simp only [getopt_loop, ne_eq, not_true_eq_false, if_false, sys] at h
        obtain ⟨h1, h2⟩ := ih _ _ _ _ _ _ _ _ h
        refine ⟨fun hh => ?_, fun e he => ?_⟩
        · rcases h1 hh with h | h | h
          · exact Or.inl h
          · exact Or.inr (Or.inl (List.mem_cons_of_mem _ h))
          · exact Or.inr (Or.inr (List.mem_cons_of_mem _ h))
        · rcases h2 e he with h | h
          · rcases List.mem_append.mp h with h | h
            · exact Or.inl h
            · simp only [List.mem_singleton] at h
              exact Or.inr ⟨a, by rw [h]⟩
          · exact Or.inr h
      · simp [getopt_loop, hu] at h
    | t a =>
      by_cases hu : uid = 0
      · subst hu
        simp only [getopt_loop, ne_eq, not_true_eq_false, if_false, sys] at h
        obtain ⟨h1, h2⟩ := ih _ _ _ _ _ _ _ _ h
        refine ⟨fun hh => ?_, fun e he => ?_⟩
        · rcases h1 hh with h | h | h
          · exact Or.inl h
          · exact Or.inr (Or.inl (List.mem_cons_of_mem _ h))
          · exact Or.inr (Or.inr (List.mem_cons_of_mem _ h))
        · rcases h2 e he with h | h
          · rcases List.mem_append.mp h with h | h
            · exact Or.inl h
            · simp only [List.mem_singleton] at h
              exact Or.inr ⟨a, by rw [h]⟩
          · exact Or.inr h
      · simp [getopt_loop, hu] at h
    | r =>
      simp only [getopt_loop] at h
      obtain ⟨-, h2⟩ := ih _ _ _ _ _ _ _ _ h
      exact ⟨fun _ => Or.inr (Or.inl (List.mem_cons_self _ _)), h2⟩
    | u =>
      simp only [getopt_loop] at h
      obtain ⟨-, h2⟩ := ih _ _ _ _ _ _ _ _ h
      exact ⟨fun _ => Or.inr (Or.inr (List.mem_cons_self _ _)), h2⟩
    | other => simp [getopt_loop] at h

theorem check_self_ok (uid : Nat) (w : World) (self : String) (tr tr' : Trace)
    (h : check_self uid w self tr = (none, tr')) :
    ∀ e ∈ tr', e ∈ tr ∨ e.1 = .lstat self := by
  by_cases hu : uid = 0
  · simp only [check_self, hu, ne_eq, not_true_eq_false, if_false, Prod.mk.injEq,
      true_and] at h
    subst h
    exact fun e he => Or.inl he
  · by_cases h1 : (w tr (.lstat self)).ret = 0
    · by_cases h2 : (w tr (.lstat self)).st.st_uid = 0
      · simp only [check_self, sys, hu, h1, h2, ne_eq, not_false_eq_true, not_true_eq_false,
          if_true, if_false, Prod.mk.injEq, true_and] at h
        subst h
        intro e he
        rcases List.mem_append.mp he with he | he
        · exact Or.inl he
        · simp only [List.mem_singleton] at he
          exact Or.inr (by rw [he])
      · simp [check_self, sys, hu, h1, h2] at h
    · simp [check_self, sys, hu, h1] at h

theorem check_target_ok (w : World) (cr : Option String) (rm um : Bool) (tr tr' : Trace)
    (c : Ctx) (h : check_target w cr rm um tr = (.ok c, tr')) :
    c.unmount = um ∧ c.self = c.child_root ++ "/init" ∧
    ∀ e ∈ tr', e ∈ tr ∨ e.1.setup = false ∧
      (∀ s u g, e.1 = .chown s u g → s = c.child_root) ∧
      (∀ s m, e.1 = .chmod s m → s = c.child_root) := by
  cases cr with
  | none => simp [check_target] at h
  | some child_root =>
    simp only [check_target, sys] at h
    split_ifs at h <;>
      simp only [Prod.mk.injEq, Except.ok.injEq, reduceCtorEq, false_and] at h <;>
      (obtain ⟨rfl, rfl⟩ := h
       refine ⟨rfl, rfl, fun e he => ?_⟩
       simp only [List.mem_append, List.mem_singleton] at he
       casesm* _ ∨ _
       all_goals
         first
           | (left; assumption)
           | (subst_vars; exact Or.inr ⟨rfl, by simp, by simp⟩))

theorem main_init_ok (p : Proc) (w : World) (c : Ctx) (tr1 : Trace)
    (h : main_init p w [] = (.ok c, tr1)) :
    (c.unmount = true → Opt.r ∈ p.opts ∨ Opt.u ∈ p.opts) ∧
    c.self = c.child_root ++ "/init" ∧
    ∀ e ∈ tr1, e.1.setup = false ∧
      (∀ s u g, e.1 = .chown s u g → s = c.child_root) ∧
      (∀ s m, e.1 = .chmod s m → s = c.child_root) := by
  have hi := main_init_head p w
  simp only at hi
  rw [h] at hi
  generalize htr0 : ([(Call.dirname p.argv0, w [] (.dirname p.argv0)),
         (Call.realpath (w [] (.dirname p.argv0)).str,
           w [(.dirname p.argv0, w [] (.dirname p.argv0))]
             (.realpath (w [] (.dirname p.argv0)).str))] : Trace) = tr0 at hi
  have h0 : ∀ e ∈ tr0, e.1.setup = false ∧
      (∀ s u g, e.1 = .chown s u g → s = c.child_root) ∧
      (∀ s m, e.1 = .chmod s m → s = c.child_root) := by
    subst htr0
    intro e he
    simp only [List.mem_cons, List.mem_singleton, List.not_mem_nil, or_false] at he
    rcases he with rfl | rfl <;> exact ⟨rfl, by simp, by simp⟩
  generalize hcr0 : (if (w [(Call.dirname p.argv0, w [] (.dirname p.argv0))]
             (.realpath (w [] (.dirname p.argv0)).str)).ret ≠ 0 then
          some (w [(Call.dirname p.argv0, w [] (.dirname p.argv0))]
             (.realpath (w [] (.dirname p.argv0)).str)).str
        else none : Option String) = cr0 at hi
  rcases hg : getopt_loop p.uid w p.opts cr0 false false tr0 with ⟨res, trg⟩
  rw [hg] at hi
  cases res with
  | error e => simp at hi
  | ok x =>
    obtain ⟨cr, rm, um⟩ := x
    obtain ⟨hum, htrg⟩ := getopt_loop_ok p.uid w p.opts cr0 false false tr0 cr rm um trg hg
    simp only at hi
    rcases hs : check_self p.uid w p.argv0 trg with ⟨es, trs⟩
    rw [hs] at hi
    cases es with
    | some e => simp at hi
    | none =>
      simp only at hi
      have htrs := check_self_ok p.uid w p.argv0 trg trs hs
      obtain ⟨hu, hself, htr1⟩ := check_target_ok w cr rm um trs tr1 c hi.symm
      refine ⟨fun hc => ?_, hself, fun e he => ?_⟩
      · rw [hu] at hc
        rcases hum hc with h | h | h
        · cases h
        · exact Or.inl h
        · exact Or.inr h
      · rcases htr1 e he with he | hq
        · rcases htrs e he with he | hl
          · rcases htrg e he with he | ⟨s, hr⟩
            · exact h0 e he
            · rw [hr]; exact ⟨rfl, by simp, by simp⟩
          · rw [hl]; exact ⟨rfl, by simp, by simp⟩
        · exact hq

theorem scan_mounts_trace (w : World) (t : String) :
    ∀ (l : List mntent) (tr : Trace),
      ∀ e ∈ (scan_mounts w t l tr).2, e ∈ tr ∨ e.1 = .read_mounts := by
  intro l
  induction l with
  | nil => intro tr e he; exact Or.inl he
  | cons m ms ih =>
    intro tr e he
    simp only [scan_mounts, sys] at he
    split_ifs at he
    · exact ih tr e he
    · simp only [List.mem_append, List.mem_singleton] at he
      rcases he with he | he
      · exact Or.inl he
      · exact Or.inr (by rw [he])
    · simp only [List.mem_append, List.mem_singleton] at he
      rcases he with he | he
      · exact Or.inl he
      · exact Or.inr (by rw [he])
    · exact Or.inl he

theorem detect_mounts_trace (w : World) (t : String) (tr : Trace) :
    ∀ e ∈ (detect_mounts w t tr).2, e ∈ tr ∨ e.1 = .read_mounts := by
  intro e he
  simp only [detect_mounts, sys] at he
  split_ifs at he
  · rcases scan_mounts_trace w t _ _ e he with he | he
    · simp only [List.mem_append, List.mem_singleton] at he
      rcases he with he | he
      · exact Or.inl he
      · exact Or.inr (by rw [he])
    · exact Or.inr he
  · simp only [List.mem_append, List.mem_singleton] at he
    rcases he with he | he
    · exact Or.inl he
    · exact Or.inr (by rw [he])

theorem chroot_dance_trace (w : World) (c : Ctx) (tr : Trace) :
    ∃ post, (chroot_dance w c tr).2 = tr ++ post ∧ post ≠ [] ∧
      (post.map Prod.fst).take 3 <+: [.getcwd, .chdir c.child_root, .chroot "."] ∧
      ((chroot_dance w c tr).1 = none → 3 ≤ post.length) ∧
      ∀ e ∈ post, e.1 = .getcwd ∨ (∃ s, e.1 = .chdir s) ∨ e.1 = .chroot "." := by
  simp only [chroot_dance, sys]
  split_ifs
  all_goals
    try simp only [List.append_assoc]
    refine ⟨_, rfl, ?h2, ?h3, ?h4, ?h5⟩
    case h2 => simp
    case h3 =>
      simp only [List.map_append, List.map_cons, List.map_nil, List.singleton_append,
        List.take_succ_cons, List.take_zero, List.take_nil, List.cons_append, List.nil_append]
      first
        | exact List.prefix_rfl
        | exact ⟨[_], rfl⟩
        | exact ⟨[_, _], rfl⟩
    case h4 => simp
    case h5 =>
      intro e he
      simp only [List.mem_append, List.mem_singleton, List.mem_cons, List.not_mem_nil,
        or_false] at he
      try casesm* _ ∨ _
      all_goals
        subst_vars
        first
          | exact Or.inl rfl
          | exact Or.inr (Or.inl ⟨_, rfl⟩)
          | exact Or.inr (Or.inr rfl)

theorem Trace.grows_refl (Q : Call → Prop) (tr : Trace) : Trace.grows Q tr tr :=
  ⟨[], by simp, by simp⟩

theorem Trace.grows_trans (Q : Call → Prop) {a b c : Trace}
    (h1 : Trace.grows Q a b) (h2 : Trace.grows Q b c) : Trace.grows Q a c := by
  obtain ⟨e1, rfl, q1⟩ := h1
  obtain ⟨e2, rfl, q2⟩ := h2
  refine ⟨e1 ++ e2, by simp, fun e he => ?_⟩
  rcases List.mem_append.mp he with he | he
  · exact q1 e he
  · exact q2 e he

theorem sys_grows (Q : Call → Prop) (w : World) (c : Call) (tr : Trace) (hc : Q c) :
    Trace.grows Q tr (sys w c tr).2 :=
  ⟨[(c, w tr c)], rfl, by simp [hc]⟩

theorem privdrop_grows (p : Proc) (w : World) (tr : Trace) :
    Trace.grows Call.quiet tr (privdrop p w tr) := by
  unfold privdrop
  refine Trace.grows_trans _ (sys_grows _ w (.setgroups [p.gid]) tr ⟨rfl, by simp, by simp⟩) ?_
  refine Trace.grows_trans _ (sys_grows _ w (.setregid p.gid p.gid) _ ⟨rfl, by simp, by simp⟩) ?_
  exact sys_grows _ w (.setreuid p.uid p.uid) _ ⟨rfl, by simp, by simp⟩

theorem set_path_grows (w : World) (tr : Trace) :
    Trace.grows Call.quiet tr (set_path w tr).2 := by
  unfold set_path
  refine Trace.grows_trans _ (sys_grows _ w (.getenv "PATH") tr ⟨rfl, by simp, by simp⟩) ?_
  generalize sys w (.getenv "PATH") tr = s
  obtain ⟨r, t⟩ := s
  simp only
  split
  · rename_i ch cs _
    have hm := sys_grows Call.quiet w (.malloc (path_buf (ch :: cs)).alloc) t
      ⟨rfl, by simp, by simp⟩
    generalize sys w (.malloc (path_buf (ch :: cs)).alloc) t = s2 at hm ⊢
    obtain ⟨m, t2⟩ := s2
    simp only at hm ⊢
    split_ifs
    all_goals
      first
        | exact hm
        | exact Trace.grows_trans _ hm
            (sys_grows _ w (.setenv _ _) _ ⟨rfl, by simp, by simp⟩)
  · exact sys_grows _ w (.setenv _ _) _ ⟨rfl, by simp, by simp⟩

theorem run_child_grows (p : Proc) (w : World) (c : Ctx) (tr : Trace) :
    Trace.grows Call.quiet tr (run_child p w c tr).2 := by
  unfold run_child
  dsimp only
  refine Trace.grows_trans _ (privdrop_grows p w tr) ?_
  generalize privdrop p w tr = t0
  refine Trace.grows_trans _ (set_path_grows w t0) ?_
  generalize set_path w t0 = s
  obtain ⟨b, t⟩ := s
  cases b with
  | false => exact Trace.grows_refl _ _
  | true =>
    dsimp only
    generalize (if p.cmd = [] then ["/init.sh"] else p.cmd) = child_argv
    have h1 := sys_grows Call.quiet w (.unsetenv "LD_LIBRARY_PATH") t ⟨rfl, by simp, by simp⟩
    have h2 := sys_grows Call.quiet w (.setenv "BOTBREW_PREFIX" c.child_root)
      (sys w (.unsetenv "LD_LIBRARY_PATH") t).2 ⟨rfl, by simp, by simp⟩
    have h3 := sys_grows Call.quiet w
      (.execvp (child_argv.headD "") child_argv)
      (sys w (.setenv "BOTBREW_PREFIX" c.child_root)
        (sys w (.unsetenv "LD_LIBRARY_PATH") t).2).2 ⟨rfl, by simp, by simp⟩
    have h := Trace.grows_trans _ h1 (Trace.grows_trans _ h2 h3)
    split_ifs <;> exact h

end Botbrew
